import Mathlib

/-!
# LilFox API gateway — verification of the specification against the code

Shallow embedding of the request-plane components of the LilFox gateway
(`src/gateway`): the circuit breaker (`core/circuit_breaker.py`), the rate
limiter (`core/rate_limiter.py`), the service registry and its health sweep
(`config/service_registry.py`), the load balancer (`core/load_balancer.py`),
the path parser and forwarding logic (`core/router.py`) and the middleware
and proxy entry points (`main.py`).  Wall-clock instants are rationals
passed explicitly where the Python reads `time.time()` / `datetime.utcnow()`.
-/

namespace LilFox

/-! ## Circuit breaker (`core/circuit_breaker.py`) -/

/-- `CircuitBreakerState`: CLOSED / OPEN / HALF_OPEN. -/
inductive CBState where
  | closed
  | opened
  | halfOpen
deriving DecidableEq, Repr

/-- `CircuitBreakerConfig`.  `timeout` is the open-timeout in seconds. -/
structure CBConfig where
  failureThreshold : Nat := 5
  successThreshold : Nat := 2
  timeout : Nat := 60
  halfOpenMaxCalls : Nat := 3
deriving DecidableEq, Repr

/-- `CircuitBreakerStats`. -/
structure CBStats where
  totalCalls : Nat := 0
  successCalls : Nat := 0
  failureCalls : Nat := 0
  consecutiveFailures : Nat := 0
  consecutiveSuccesses : Nat := 0
  lastFailureTime : Option ℚ := none
  lastSuccessTime : Option ℚ := none
  lastStateChange : Option ℚ := none
deriving DecidableEq, Repr

/-- A circuit-breaker cell: state, stats and the half-open in-flight counter. -/
structure CircuitBreaker where
  config : CBConfig := {}
  state : CBState := .closed
  stats : CBStats := {}
  halfOpenCalls : Nat := 0
deriving DecidableEq, Repr

namespace CircuitBreaker

/-- `_transition_to_open`. -/
def transitionToOpen (cb : CircuitBreaker) (now : ℚ) : CircuitBreaker :=
  { cb with
    state := .opened
    stats := { cb.stats with lastStateChange := some now }
    halfOpenCalls := 0 }

/-- `_transition_to_half_open`. -/
def transitionToHalfOpen (cb : CircuitBreaker) (now : ℚ) : CircuitBreaker :=
  { cb with
    state := .halfOpen
    stats := { cb.stats with lastStateChange := some now, consecutiveSuccesses := 0 }
    halfOpenCalls := 0 }

/-- `_transition_to_closed`. -/
def transitionToClosed (cb : CircuitBreaker) (now : ℚ) : CircuitBreaker :=
  { cb with
    state := .closed
    stats := { cb.stats with lastStateChange := some now, consecutiveFailures := 0 }
    halfOpenCalls := 0 }

/-- `_should_attempt_reset`: true iff a failure has been recorded and at least
`timeout` seconds have elapsed since it. -/
def shouldAttemptReset (cb : CircuitBreaker) (now : ℚ) : Bool :=
  match cb.stats.lastFailureTime with
  | none => false
  | some t => decide ((cb.config.timeout : ℚ) ≤ now - t)

/-- `_can_execute`: returns the admission decision together with the cell after
the possible OPEN → HALF_OPEN transition. -/
def canExecute (cb : CircuitBreaker) (now : ℚ) : Bool × CircuitBreaker :=
  match cb.state with
  | .closed => (true, cb)
  | .opened =>
      if cb.shouldAttemptReset now then (true, cb.transitionToHalfOpen now)
      else (false, cb)
  | .halfOpen => (decide (cb.halfOpenCalls < cb.config.halfOpenMaxCalls), cb)

/-- `_on_success`. -/
def onSuccess (cb : CircuitBreaker) (now : ℚ) : CircuitBreaker :=
  let cb :=
    { cb with
      stats :=
        { cb.stats with
          totalCalls := cb.stats.totalCalls + 1
          successCalls := cb.stats.successCalls + 1
          consecutiveSuccesses := cb.stats.consecutiveSuccesses + 1
          consecutiveFailures := 0
          lastSuccessTime := some now } }
  if cb.state = .halfOpen then
    let cb := { cb with halfOpenCalls := cb.halfOpenCalls + 1 }
    if cb.config.successThreshold ≤ cb.stats.consecutiveSuccesses then
      cb.transitionToClosed now
    else cb
  else cb

/-- `_on_failure`. -/
def onFailure (cb : CircuitBreaker) (now : ℚ) : CircuitBreaker :=
  let cb :=
    { cb with
      stats :=
        { cb.stats with
          totalCalls := cb.stats.totalCalls + 1
          failureCalls := cb.stats.failureCalls + 1
          consecutiveFailures := cb.stats.consecutiveFailures + 1
          consecutiveSuccesses := 0
          lastFailureTime := some now } }
  if cb.state = .closed then
    if cb.config.failureThreshold ≤ cb.stats.consecutiveFailures then
      cb.transitionToOpen now
    else cb
  else if cb.state = .halfOpen then cb.transitionToOpen now
  else cb

/-- `reset`: back to CLOSED with fresh stats. -/
def resetCell (cb : CircuitBreaker) : CircuitBreaker :=
  { cb with state := .closed, stats := {}, halfOpenCalls := 0 }

end CircuitBreaker

/-- The state-mutating entry points of a breaker cell: recording a success,
recording a failure, an admission attempt (`_can_execute`, which may perform
the OPEN → HALF_OPEN transition), and an explicit reset. -/
inductive CBEvent where
  | success (now : ℚ)
  | failure (now : ℚ)
  | attempt (now : ℚ)
  | reset
deriving DecidableEq

/-- One event step of a breaker cell. -/
def cbStep (cb : CircuitBreaker) (e : CBEvent) : CircuitBreaker :=
  match e with
  | .success now => cb.onSuccess now
  | .failure now => cb.onFailure now
  | .attempt now => (cb.canExecute now).2
  | .reset => cb.resetCell

end LilFox

namespace LilFox

/-! ### Claim C3: the breaker state machine -/

/-- **C3.** The cell state evolves only by the listed transitions: a reset
always yields CLOSED; a success transitions HALF_OPEN → CLOSED exactly when
the consecutive-success counter reaches the success threshold, and otherwise
leaves the state unchanged; a failure transitions CLOSED → OPEN exactly when
the consecutive-failure counter reaches the failure threshold, sends
HALF_OPEN → OPEN unconditionally, and leaves OPEN unchanged; an admission
attempt transitions OPEN → HALF_OPEN exactly when at least `timeout` seconds
have passed since the recorded last failure, and never changes any other
state. -/
theorem cb_state_transitions (cb : CircuitBreaker) (e : CBEvent) :
    (cbStep cb e).state =
      match e, cb.state with
      | .reset, _ => .closed
      | .success _, .halfOpen =>
          if cb.config.successThreshold ≤ cb.stats.consecutiveSuccesses + 1 then
            .closed
          else .halfOpen
      | .success _, s => s
      | .failure _, .closed =>
          if cb.config.failureThreshold ≤ cb.stats.consecutiveFailures + 1 then
            .opened
          else .closed
      | .failure _, .halfOpen => .opened
      | .failure _, .opened => .opened
      | .attempt now, .opened =>
          match cb.stats.lastFailureTime with
          | some t => if (cb.config.timeout : ℚ) ≤ now - t then .halfOpen else .opened
          | none => .opened
      | .attempt _, s => s := by
  cases e with
  | success now =>
      cases h : cb.state <;>
        simp [cbStep, CircuitBreaker.onSuccess, CircuitBreaker.transitionToClosed, h] <;>
        split <;> simp_all
  | failure now =>
      cases h : cb.state <;>
        simp [cbStep, CircuitBreaker.onFailure, CircuitBreaker.transitionToOpen, h] <;>
        split <;> simp_all
  | attempt now =>
      cases h : cb.state <;>
        simp [cbStep, CircuitBreaker.canExecute, CircuitBreaker.shouldAttemptReset,
          CircuitBreaker.transitionToHalfOpen, h]
      cases hf : cb.stats.lastFailureTime <;> simp [hf, h] <;> split <;> simp_all
  | reset =>
      simp [cbStep, CircuitBreaker.resetCell]

/-! ### Claim C8: the counter alternation after state-mutating calls -/

/-- Exactly one of the two consecutive counters of a cell is non-zero. -/
def exactlyOneCounter (cb : CircuitBreaker) : Prop :=
  (cb.stats.consecutiveFailures ≠ 0 ∧ cb.stats.consecutiveSuccesses = 0) ∨
    (cb.stats.consecutiveFailures = 0 ∧ cb.stats.consecutiveSuccesses ≠ 0)

instance (cb : CircuitBreaker) : Decidable (exactlyOneCounter cb) := by
  unfold exactlyOneCounter; infer_instance

/-- **C8, counterexample.** Recording one failure and then issuing an explicit
reset — a state-mutating call — leaves both consecutive counters at zero, so
it is not the case that exactly one of them is non-zero. -/
theorem cb_reset_zeroes_both_counters :
    ¬ exactlyOneCounter (cbStep (cbStep {} (.failure 0)) .reset) := by
  decide

/-- **C8, amended.** After recording a success or a failure, exactly one of
`consecutive_failures` and `consecutive_successes` is non-zero; after an
explicit reset both counters are zero. -/
theorem cb_counter_alternation (cb : CircuitBreaker) (now : ℚ) :
    exactlyOneCounter (cbStep cb (.success now)) ∧
      exactlyOneCounter (cbStep cb (.failure now)) ∧
      (cbStep cb .reset).stats.consecutiveFailures = 0 ∧
      (cbStep cb .reset).stats.consecutiveSuccesses = 0 := by
  refine ⟨?_, ?_, rfl, rfl⟩
  · simp only [cbStep, CircuitBreaker.onSuccess, CircuitBreaker.transitionToClosed]
    split
    · split
      · simp [exactlyOneCounter]
      · simp [exactlyOneCounter]
    · simp [exactlyOneCounter]
  · simp only [cbStep, CircuitBreaker.onFailure, CircuitBreaker.transitionToOpen]
    split
    · split
      · simp [exactlyOneCounter]
      · simp [exactlyOneCounter]
    · split
      · simp [exactlyOneCounter]
      · simp [exactlyOneCounter]

/-! ## Path parsing (`core/router.py`, `RequestRouter._parse_path`) -/

/-- Python strings are sequences of characters; the embedding works on the
character list so that slicing and prefix tests have Python's semantics. -/
abbrev PyStr := List Char

/-- `str.startswith(p)`. -/
def pyStartsWith (s p : PyStr) : Bool := p.isPrefixOf s

/-- `str.rstrip(c)` on a single strip character. -/
def rstripChar (s : PyStr) (c : Char) : PyStr :=
  (s.reverse.dropWhile (· == c)).reverse

/-- The tail of `_parse_path` after prefix removal: `path.split('/', 1)`, with
`(None, '')` when the first component is empty. -/
def splitService (path : PyStr) : Option PyStr × PyStr :=
  let svc := path.takeWhile (· != '/')
  if svc.isEmpty then (none, [])
  else (some svc, if svc.length < path.length then path.drop (svc.length + 1) else [])

/-- `RequestRouter._parse_path`: when the raw path string starts with the
gateway prefix, exactly `len(prefix)` characters are removed and leading
slashes stripped; then the service name is the first slash-separated
segment. -/
def parsePath (pfx path : PyStr) : Option PyStr × PyStr :=
  let path :=
    if pyStartsWith path pfx then (path.drop pfx.length).dropWhile (· == '/')
    else path
  splitService path

/-- `settings.GATEWAY_PREFIX` default (`config/settings.py`). -/
def settingsGatewayPrefixDefault : PyStr := "/api".data

/-- The router's prefix: `settings.GATEWAY_PREFIX.rstrip('/')`. -/
def routerGatewayPrefix : PyStr := rstripChar settingsGatewayPrefixDefault '/'

/-! ## Responses and the forwarding path (`core/router.py`, `main.py`) -/

/-- An HTTP response as the gateway builds it: status, headers, and the two
JSON body fields the gateway's error bodies use (`error`, `request_id`).
Proxied upstream responses carry neither body field. -/
structure HttpResponse where
  status : Nat
  headers : List (String × String) := []
  bodyError : Option String := none
  bodyRequestId : Option String := none
deriving DecidableEq, Repr

/-- Outcome of the outbound `client.request` call in `_forward_request`:
a response from the upstream (any status), an `httpx.HTTPError` (connection
errors and timeouts), or any other exception. -/
inductive ForwardOutcome where
  | upstream (status : Nat)
  | httpError
  | otherError
deriving DecidableEq, Repr

/-- `RequestRouter._forward_request`: the upstream status is copied back
verbatim; both exception branches return a 502 response (the function itself
never raises). -/
def forwardRequest (fo : ForwardOutcome) : HttpResponse :=
  match fo with
  | .upstream s => { status := s }
  | .httpError => { status := 502, bodyError := some "Service error" }
  | .otherError => { status := 502, bodyError := some "Failed to forward request" }

/-- `RequestRouter.route_request`: 400 when no service name parses, 503 when
discovery yields no instance, otherwise the forwarded response.  Its catch-all
`except Exception` turns any escaping exception into a 500 response, so the
function always returns a response and never raises. -/
def routeRequest (path : PyStr) (instanceAvailable : Bool) (fo : ForwardOutcome) :
    HttpResponse :=
  match (parsePath routerGatewayPrefix path).1 with
  | none => { status := 400, bodyError := some "Invalid path" }
  | some _ =>
      if instanceAvailable then forwardRequest fo
      else { status := 503, bodyError := some "Service not available" }

/-- Outcome of `CircuitBreaker.call`: rejected without invoking the function
(`CircuitBreakerOpenError`), returned the function's value, or re-raised the
function's exception. -/
inductive CallOutcome where
  | rejected
  | returned (r : HttpResponse)
  | raised
deriving DecidableEq, Repr

/-- `CircuitBreaker.call`: gate on `_can_execute`; record `_on_success` when
the wrapped function returns normally and `_on_failure` when it raises. -/
def CircuitBreaker.callFn (cb : CircuitBreaker) (now : ℚ)
    (fnResult : Except Unit HttpResponse) : CallOutcome × CircuitBreaker :=
  let gate := cb.canExecute now
  if gate.1 then
    match fnResult with
    | .ok r => (.returned r, (gate.2).onSuccess now)
    | .error _ => (.raised, (gate.2).onFailure now)
  else (.rejected, gate.2)

/-- `proxy_request` (`main.py`) on the circuit-breaker path: parse the path,
look up the service's cell, and run `route_request` through `breaker.call`.
Because `route_request` is total, the wrapped function always returns
normally, which the `.ok` argument to `callFn` records.  `none` in the first
component models the handler producing no response (unparseable path under
the breaker path, or a re-raised exception). -/
def proxyRequest (cb : CircuitBreaker) (now : ℚ) (path : PyStr)
    (instanceAvailable : Bool) (fo : ForwardOutcome) :
    Option HttpResponse × CircuitBreaker :=
  match (parsePath routerGatewayPrefix ('/' :: path)).1 with
  | some _ =>
      match cb.callFn now (.ok (routeRequest ('/' :: path) instanceAvailable fo)) with
      | (.rejected, cb') =>
          (some { status := 503,
                  bodyError := some "Service unavailable (circuit breaker open)" }, cb')
      | (.returned r, cb') => (some r, cb')
      | (.raised, cb') => (none, cb')
  | none => (none, cb)

/-! ### Claim C1: breaker feedback on the proxied outcome -/

/-- The cell of service `auth` after five straight proxied requests whose
upstream answered 500. -/
def cbAfterFiveFaults : CircuitBreaker :=
  (List.replicate 5 ()).foldl
    (fun cb _ => (proxyRequest cb 0 "api/auth/me".data true (.upstream 500)).2) {}

/-- **C1.** The code contradicts the claim: because `route_request` converts
connection errors, timeouts and upstream 5xx responses into ordinary returned
responses, `breaker.call` records a *success* for every proxied request.  At
the failing input — upstream returns 500, or the connection fails — the cell
records a success and no failure; five straight upstream 500s leave the cell
CLOSED with zero recorded failures. -/
theorem breaker_records_success_on_upstream_fault :
    (((proxyRequest {} 0 "api/auth/me".data true (.upstream 500)).2).stats.successCalls = 1 ∧
        ((proxyRequest {} 0 "api/auth/me".data true (.upstream 500)).2).stats.failureCalls = 0 ∧
        ((proxyRequest {} 0 "api/auth/me".data true (.upstream 500)).2).stats.consecutiveFailures = 0) ∧
      (((proxyRequest {} 0 "api/auth/me".data true .httpError).2).stats.successCalls = 1 ∧
        ((proxyRequest {} 0 "api/auth/me".data true .httpError).2).stats.failureCalls = 0) ∧
      (cbAfterFiveFaults.state = CBState.closed ∧
        cbAfterFiveFaults.stats.failureCalls = 0 ∧
        cbAfterFiveFaults.stats.successCalls = 5) := by
  decide

/-! ## Service registry (`config/service_registry.py`) -/

/-- `ServiceStatus`. -/
inductive ServiceStatus where
  | healthy
  | unhealthy
  | disabled
  | unknown
deriving DecidableEq, Repr

/-- `ServiceInstance`.  `lastHealthCheck` instants are `Nat` ticks standing in
for `datetime.now()`. -/
structure ServiceInstance where
  id : PyStr
  name : PyStr
  url : PyStr
  healthCheck : PyStr := "/".data
  weight : Nat := 1
  enabled : Bool := true
  status : ServiceStatus := .unknown
  lastHealthCheck : Option Nat := none
  consecutiveFailures : Nat := 0
  consecutiveSuccesses : Nat := 0
  metadata : List (PyStr × PyStr) := []
deriving DecidableEq, Repr

/-- `ServiceRegistry.services`: a name-keyed dictionary of instance lists,
in insertion order, with at most one entry per name. -/
abbrev Registry := List (PyStr × List ServiceInstance)

/-- `f"{name}_{url}_{datetime.now().timestamp()}"`, with the timestamp an
explicit `Nat`. -/
def mkInstanceId (name url : PyStr) (now : Nat) : PyStr :=
  name ++ ('_' :: url) ++ ('_' :: (Nat.repr now).data)

/-- Replace the instance list of the (unique) entry named `name`. -/
def modifyService (reg : Registry) (name : PyStr)
    (f : List ServiceInstance → List ServiceInstance) : Registry :=
  match reg with
  | [] => []
  | (n, insts) :: rest =>
      if n == name then (n, f insts) :: rest
      else (n, insts) :: modifyService rest name f

/-- Apply `f` to the first instance whose id matches (the registry mutates the
instance object found by the `for` loop's id search). -/
def updateFirstById (instId : PyStr) (f : ServiceInstance → ServiceInstance) :
    List ServiceInstance → List ServiceInstance
  | [] => []
  | i :: rest =>
      if i.id == instId then f i :: rest
      else i :: updateFirstById instId f rest

/-- Remove the first instance whose id matches; `none` when absent. -/
def removeFirstById (instId : PyStr) :
    List ServiceInstance → Option (List ServiceInstance)
  | [] => none
  | i :: rest =>
      if i.id == instId then some rest
      else (removeFirstById instId rest).map (i :: ·)

/-- `ServiceRegistry.register_service`: appends a fresh enabled instance with
status UNKNOWN. -/
def registerService (reg : Registry) (name url healthCheck : PyStr)
    (weight : Nat) (now : Nat) : Registry × ServiceInstance :=
  let inst : ServiceInstance :=
    { id := mkInstanceId name url now, name := name, url := url,
      healthCheck := healthCheck, weight := weight }
  if (reg.find? (·.1 == name)).isSome then
    (modifyService reg name (· ++ [inst]), inst)
  else
    (reg ++ [(name, [inst])], inst)

/-- `ServiceRegistry.unregister_service`: removes by id; when the service's
list becomes empty its entry is deleted. -/
def unregisterService (reg : Registry) (name instId : PyStr) : Bool × Registry :=
  match reg.find? (·.1 == name) with
  | none => (false, reg)
  | some e =>
      match removeFirstById instId e.2 with
      | none => (false, reg)
      | some [] => (true, reg.filter (fun en => !(en.1 == name)))
      | some insts => (true, modifyService reg name (fun _ => insts))

/-- `ServiceRegistry.disable_service` on the found instance. -/
def disableInst (i : ServiceInstance) : ServiceInstance :=
  { i with enabled := false, status := .disabled }

/-- `ServiceRegistry.enable_service` on the found instance. -/
def enableInst (i : ServiceInstance) : ServiceInstance :=
  { i with enabled := true, status := .unknown }

/-- `ServiceRegistry.update_service_status` on the found instance: sets the
given status unconditionally, stamps the check time, and adjusts the two
consecutive counters. -/
def updateInstStatus (st : ServiceStatus) (now : Nat) (i : ServiceInstance) :
    ServiceInstance :=
  { i with
    status := st
    lastHealthCheck := some now
    consecutiveFailures := if st = .healthy then 0 else i.consecutiveFailures + 1
    consecutiveSuccesses := if st = .healthy then i.consecutiveSuccesses + 1 else 0 }

/-- `disable_service`. -/
def disableService (reg : Registry) (name instId : PyStr) : Registry :=
  modifyService reg name (updateFirstById instId disableInst)

/-- `enable_service`. -/
def enableService (reg : Registry) (name instId : PyStr) : Registry :=
  modifyService reg name (updateFirstById instId enableInst)

/-- `update_service_status`. -/
def updateServiceStatus (reg : Registry) (name instId : PyStr)
    (st : ServiceStatus) (now : Nat) : Registry :=
  modifyService reg name (updateFirstById instId (updateInstStatus st now))

/-- A registry operation, as invoked by callers of the registry. -/
inductive RegOp where
  | register (name url healthCheck : PyStr) (weight : Nat) (now : Nat)
  | unregister (name instId : PyStr)
  | enable (name instId : PyStr)
  | disable (name instId : PyStr)
  | updateStatus (name instId : PyStr) (st : ServiceStatus) (now : Nat)
deriving DecidableEq

/-- Apply one registry operation. -/
def applyOp (reg : Registry) : RegOp → Registry
  | .register n u h w t => (registerService reg n u h w t).1
  | .unregister n i => (unregisterService reg n i).2
  | .enable n i => enableService reg n i
  | .disable n i => disableService reg n i
  | .updateStatus n i st t => updateServiceStatus reg n i st t

/-- Apply a sequence of registry operations to the empty registry. -/
def applyOps (ops : List RegOp) : Registry := ops.foldl applyOp []

/-- Whether an operation is an `update_service_status` call. -/
def RegOp.isUpdateStatus : RegOp → Bool
  | .updateStatus _ _ _ _ => true
  | _ => false

/-- The DISABLED ⇔ ¬enabled invariant of one instance, as a boolean. -/
def instDisabledIffB (i : ServiceInstance) : Bool :=
  (i.status == .disabled) == !i.enabled

/-- The DISABLED ⇔ ¬enabled invariant over a whole registry, as a boolean. -/
def regDisabledIffB (reg : Registry) : Bool :=
  reg.all (fun e => e.2.all instDisabledIffB)

/-- The DISABLED ⇔ ¬enabled invariant of one instance. -/
def instDisabledIff (i : ServiceInstance) : Prop :=
  i.status = .disabled ↔ i.enabled = false

/-! ### Claim C5: the DISABLED ⇔ ¬enabled invariant -/

/-- The operation sequence refuting C5: register an instance, then call
`update_service_status` on it with DISABLED.  The instance stays enabled. -/
def c5Ops : List RegOp :=
  [.register "auth".data "u1".data "/".data 1 0,
   .updateStatus "auth".data (mkInstanceId "auth".data "u1".data 0) .disabled 1]

/-- **C5, counterexample.** After `register` followed by
`update_service_status(..., DISABLED)` the registry holds an instance with
`status = DISABLED` and `enabled = true`: the invariant is violated by a
sequence of registry operations that includes update-status. -/
theorem update_status_breaks_disabled_iff :
    regDisabledIffB (applyOps c5Ops) = false := by
  decide

lemma all_updateFirstById {P : ServiceInstance → Prop} {instId : PyStr}
    {g : ServiceInstance → ServiceInstance} {l : List ServiceInstance}
    (hg : ∀ i, P (g i)) (hl : ∀ i ∈ l, P i) :
    ∀ i ∈ updateFirstById instId g l, P i := by
  induction l with
  | nil => simp [updateFirstById]
  | cons hd tl ih =>
      intro i hi
      simp only [updateFirstById] at hi
      split at hi
      · rcases List.mem_cons.mp hi with rfl | hi
        · exact hg hd
        · exact hl i (List.mem_cons_of_mem _ hi)
      · rcases List.mem_cons.mp hi with rfl | hi
        · exact hl i (List.mem_cons_self _ _)
        · exact ih (fun j hj => hl j (List.mem_cons_of_mem _ hj)) i hi

lemma all_modifyService {P : ServiceInstance → Prop} {reg : Registry}
    {name : PyStr} {f : List ServiceInstance → List ServiceInstance}
    (hreg : ∀ e ∈ reg, ∀ i ∈ e.2, P i)
    (hf : ∀ l, (∀ i ∈ l, P i) → ∀ i ∈ f l, P i) :
    ∀ e ∈ modifyService reg name f, ∀ i ∈ e.2, P i := by
  induction reg with
  | nil => simp [modifyService]
  | cons hd tl ih =>
      intro e he
      rw [show modifyService (hd :: tl) name f
            = if hd.1 == name then (hd.1, f hd.2) :: tl
              else (hd.1, hd.2) :: modifyService tl name f from rfl] at he
      split at he
      · rcases List.mem_cons.mp he with rfl | he
        · exact hf hd.2 (hreg hd (List.mem_cons_self _ _))
        · exact hreg e (List.mem_cons_of_mem _ he)
      · rcases List.mem_cons.mp he with rfl | he
        · exact hreg hd (List.mem_cons_self _ _)
        · exact ih (fun a ha => hreg a (List.mem_cons_of_mem _ ha)) e he

lemma mem_removeFirstById {instId : PyStr} {l l2 : List ServiceInstance}
    (h : removeFirstById instId l = some l2) : ∀ i ∈ l2, i ∈ l := by
  induction l generalizing l2 with
  | nil => simp [removeFirstById] at h
  | cons hd tl ih =>
      simp only [removeFirstById] at h
      split at h
      · cases h
        exact fun i hi => List.mem_cons_of_mem _ hi
      · cases hr : removeFirstById instId tl with
        | none => rw [hr] at h; cases h
        | some l3 =>
            rw [hr] at h
            cases h
            intro i hi
            rcases List.mem_cons.mp hi with rfl | hi
            · exact List.mem_cons_self _ _
            · exact List.mem_cons_of_mem _ (ih hr i hi)

lemma applyOp_preserves_disabledIff {reg : Registry} {op : RegOp}
    (hop : op.isUpdateStatus = false)
    (hreg : ∀ e ∈ reg, ∀ i ∈ e.2, instDisabledIff i) :
    ∀ e ∈ applyOp reg op, ∀ i ∈ e.2, instDisabledIff i := by
  cases op with
  | register n u h w t =>
      simp only [applyOp, registerService]
      have hnew : instDisabledIff
          { id := mkInstanceId n u t, name := n, url := u,
            healthCheck := h, weight := w } := by
        simp [instDisabledIff]
      split
      · exact all_modifyService hreg (fun l hl i hi => by
          rcases List.mem_append.mp hi with hi | hi
          · exact hl i hi
          · rcases List.mem_singleton.mp hi with rfl
            exact hnew)
      · intro e he
        rcases List.mem_append.mp he with he | he
        · exact hreg e he
        · rcases List.mem_singleton.mp he with rfl
          intro i hi
          rcases List.mem_singleton.mp hi with rfl
          exact hnew
  | unregister n instId =>
      simp only [applyOp, unregisterService]
      cases hfind : List.find? (·.1 == n) reg with
      | none => exact hreg
      | some e0 =>
          have he0 : e0 ∈ reg := List.mem_of_find?_eq_some hfind
          dsimp only
          cases hrem : removeFirstById instId e0.2 with
          | none => exact hreg
          | some l2 =>
              cases l2 with
              | nil =>
                  intro e he
                  exact hreg e (List.mem_of_mem_filter he)
              | cons a l3 =>
                  exact all_modifyService hreg (fun l _ i hi =>
                    hreg e0 he0 i (mem_removeFirstById hrem i hi))
  | enable n instId =>
      exact all_modifyService hreg (fun l hl =>
        all_updateFirstById (fun i => by simp [enableInst, instDisabledIff]) hl)
  | disable n instId =>
      exact all_modifyService hreg (fun l hl =>
        all_updateFirstById (fun i => by simp [disableInst, instDisabledIff]) hl)
  | updateStatus n instId st t =>
      simp [RegOp.isUpdateStatus] at hop

lemma foldl_preserves_disabledIff (ops : List RegOp) :
    ∀ reg, (∀ op ∈ ops, op.isUpdateStatus = false) →
      (∀ e ∈ reg, ∀ i ∈ e.2, instDisabledIff i) →
      ∀ e ∈ ops.foldl applyOp reg, ∀ i ∈ e.2, instDisabledIff i := by
  induction ops with
  | nil => intro reg _ hreg; exact hreg
  | cons op rest ih =>
      intro reg hops hreg
      exact ih (applyOp reg op)
        (fun o ho => hops o (List.mem_cons_of_mem _ ho))
        (applyOp_preserves_disabledIff (hops op (List.mem_cons_self _ _)) hreg)

/-- **C5, amended.** After any sequence of `register`, `unregister`, `enable`
and `disable` operations, every instance in the registry satisfies
`status = DISABLED ⇔ enabled = false`.  The original claim fails because
`update_service_status` stores the supplied status unconditionally, so it is
excluded here. -/
theorem registry_disabled_iff_enabled (ops : List RegOp)
    (h : ∀ op ∈ ops, op.isUpdateStatus = false) :
    ∀ e ∈ applyOps ops, ∀ i ∈ e.2, instDisabledIff i :=
  foldl_preserves_disabledIff ops [] h (by simp)

/-! ## Health-check sweep (`ServiceRegistry._perform_health_checks`) -/

/-- Outcome of the health-check GET: a response from the instance (any
status code), or an exception (timeout, connection error, ...). -/
inductive HealthOutcome where
  | response (status : Nat)
  | failed
deriving DecidableEq, Repr

/-- The status the sweep reports for one check outcome: HEALTHY exactly when
`response.status_code == 200`, UNHEALTHY for every other status code and for
every exception. -/
def checkStatus : HealthOutcome → ServiceStatus
  | .response s => if s == 200 then .healthy else .unhealthy
  | .failed => .unhealthy

/-- `f"{instance.url.rstrip('/')}/{instance.health_check.lstrip('/')}"`. -/
def healthUrl (url hc : PyStr) : PyStr :=
  rstripChar url '/' ++ ('/' :: hc.dropWhile (· == '/'))

/-- The per-instance update calls one sweep of a service's instance list
makes: disabled instances are skipped, each enabled instance contributes its
id and the health URL the GET is issued to.  (`update_service_status` never
changes `enabled`, `url` or `health_check`, so the loop's live reads of those
fields equal their values at the start of the sweep.) -/
def instTargets (l : List ServiceInstance) : List (PyStr × PyStr) :=
  (l.filter (·.enabled)).map (fun i => (i.id, healthUrl i.url i.healthCheck))

/-- The update calls one full sweep makes, over all services in order. -/
def enabledTargets (reg : Registry) : List (PyStr × PyStr × PyStr) :=
  reg.flatMap (fun e => (instTargets e.2).map (fun p => (e.1, p)))

/-- `_perform_health_checks`: one sweep.  `oc` maps the health URL each GET is
issued to onto the observed outcome; every enabled instance's status is
updated through `update_service_status`. -/
def performHealthChecks (reg : Registry) (oc : PyStr → HealthOutcome)
    (now : Nat) : Registry :=
  (enabledTargets reg).foldl
    (fun r t => updateServiceStatus r t.1 t.2.1 (checkStatus (oc t.2.2)) now) reg

/-- All instance statuses in the registry, in order. -/
def instanceStatuses (reg : Registry) : List ServiceStatus :=
  reg.flatMap (fun e => e.2.map (·.status))

/-! ### Claim C2: health classification -/

/-- A one-instance registry for the C2 counterexample. -/
def c2Reg : Registry :=
  (registerService [] "auth".data "http://u1:9000".data "/health".data 1 0).1

/-- **C2, counterexample.** An enabled instance whose health GET answers 404 —
a status inside the 2xx–4xx range the claim calls HEALTHY — is marked
UNHEALTHY by the sweep: the code only accepts exactly 200. -/
theorem health_404_marks_unhealthy :
    instanceStatuses (performHealthChecks c2Reg (fun _ => .response 404) 1)
        = [.unhealthy] ∧
      (200 ≤ 404 ∧ 404 ≤ 499) := by
  decide

/-- What one sweep does to a single instance: enabled instances get the
classified status stamped through `update_service_status`, disabled instances
are untouched. -/
def tickInst (oc : PyStr → HealthOutcome) (now : Nat) (i : ServiceInstance) :
    ServiceInstance :=
  if i.enabled then
    updateInstStatus (checkStatus (oc (healthUrl i.url i.healthCheck))) now i
  else i

lemma updateInstStatus_id (st : ServiceStatus) (now : Nat) (i : ServiceInstance) :
    (updateInstStatus st now i).id = i.id := rfl

lemma instTargets_ids {l : List ServiceInstance} {t : PyStr × PyStr}
    (h : t ∈ instTargets l) : t.1 ∈ l.map (·.id) := by
  simp only [instTargets, List.mem_map] at h
  rcases h with ⟨i, hi, rfl⟩
  exact List.mem_map.mpr ⟨i, List.mem_of_mem_filter hi, rfl⟩

lemma foldUpd_skip (oc : PyStr → HealthOutcome) (now : Nat) :
    ∀ (ts : List (PyStr × PyStr)) (x : ServiceInstance) (l : List ServiceInstance),
      (∀ t ∈ ts, (x.id == t.1) = false) →
      ts.foldl (fun l t =>
          updateFirstById t.1 (updateInstStatus (checkStatus (oc t.2)) now) l) (x :: l)
        = x :: ts.foldl (fun l t =>
            updateFirstById t.1 (updateInstStatus (checkStatus (oc t.2)) now) l) l := by
  intro ts
  induction ts with
  | nil => intro x l _; rfl
  | cons t ts ih =>
      intro x l hx
      simp only [List.foldl_cons]
      rw [show updateFirstById t.1 (updateInstStatus (checkStatus (oc t.2)) now) (x :: l)
            = x :: updateFirstById t.1 (updateInstStatus (checkStatus (oc t.2)) now) l by
          simp [updateFirstById, hx t (List.mem_cons_self _ _)]]
      exact ih x _ (fun u hu => hx u (List.mem_cons_of_mem _ hu))

lemma tick_insts (oc : PyStr → HealthOutcome) (now : Nat) :
    ∀ (l : List ServiceInstance), (l.map (·.id)).Nodup →
      (instTargets l).foldl (fun l t =>
          updateFirstById t.1 (updateInstStatus (checkStatus (oc t.2)) now) l) l
        = l.map (tickInst oc now) := by
  intro l
  induction l with
  | nil => intro _; rfl
  | cons i rest ih =>
      intro hnd
      rw [List.map_cons, List.nodup_cons] at hnd
      obtain ⟨hid, hnd⟩ := hnd
      by_cases he : i.enabled
      · rw [show instTargets (i :: rest)
              = (i.id, healthUrl i.url i.healthCheck) :: instTargets rest by
            simp [instTargets, he]]
        simp only [List.foldl_cons]
        rw [show updateFirstById i.id
              (updateInstStatus (checkStatus (oc (healthUrl i.url i.healthCheck))) now)
              (i :: rest)
              = updateInstStatus (checkStatus (oc (healthUrl i.url i.healthCheck))) now i
                  :: rest by simp [updateFirstById]]
        rw [foldUpd_skip oc now _ _ _ (fun t ht => by
          rw [updateInstStatus_id]
          exact beq_eq_false_iff_ne.mpr (fun hEq => hid (hEq ▸ instTargets_ids ht)))]
        rw [ih hnd, List.map_cons]
        simp [tickInst, he]
      · rw [show instTargets (i :: rest) = instTargets rest by simp [instTargets, he]]
        rw [foldUpd_skip oc now _ _ _ (fun t ht =>
          beq_eq_false_iff_ne.mpr (fun hEq => hid (hEq ▸ instTargets_ids ht)))]
        rw [ih hnd, List.map_cons]
        simp [tickInst, he]

lemma tick_single_service (name : PyStr) (oc : PyStr → HealthOutcome) (now : Nat) :
    ∀ (ts : List (PyStr × PyStr)) (l : List ServiceInstance),
      (ts.map (fun p => (name, p))).foldl
          (fun r t => updateServiceStatus r t.1 t.2.1 (checkStatus (oc t.2.2)) now)
          [(name, l)]
        = [(name, ts.foldl (fun l t =>
            updateFirstById t.1 (updateInstStatus (checkStatus (oc t.2)) now) l) l)] := by
  intro ts
  induction ts with
  | nil => intro l; rfl
  | cons t ts ih =>
      intro l
      simp only [List.map_cons, List.foldl_cons]
      rw [show updateServiceStatus [(name, l)] name t.1 (checkStatus (oc t.2)) now
            = [(name, updateFirstById t.1
                (updateInstStatus (checkStatus (oc t.2)) now) l)] by
          simp [updateServiceStatus, modifyService]]
      exact ih _

/-- **C2, amended.** One sweep issues, for every *enabled* instance of a
service, a GET to `url.rstrip('/') + '/' + health_check.lstrip('/')`, and
marks the instance HEALTHY exactly when the response status is 200 —
every other status (including 2xx–4xx codes other than 200), and every
timeout or connection error, marks it UNHEALTHY; disabled instances are not
touched.  Stated for a service whose instance ids are distinct, as the
registry guarantees by construction of fresh ids. -/
theorem health_tick_healthy_iff_200 (name : PyStr) (insts : List ServiceInstance)
    (oc : PyStr → HealthOutcome) (now : Nat)
    (hnodup : (insts.map (·.id)).Nodup) :
    performHealthChecks [(name, insts)] oc now
        = [(name, insts.map (fun i =>
            if i.enabled then
              updateInstStatus (checkStatus (oc (healthUrl i.url i.healthCheck))) now i
            else i))] ∧
      ∀ o, checkStatus o = .healthy ↔ o = .response 200 := by
  constructor
  · show performHealthChecks [(name, insts)] oc now = [(name, insts.map (tickInst oc now))]
    unfold performHealthChecks
    rw [show enabledTargets [(name, insts)]
          = (instTargets insts).map (fun p => (name, p)) by
        simp [enabledTargets]]
    rw [tick_single_service, tick_insts oc now insts hnodup]
  · intro o
    cases o with
    | response s =>
        by_cases hs : s = 200
        · subst hs; simp [checkStatus]
        · simp [checkStatus, hs]
    | failed => simp [checkStatus]

/-- The two instances of the C2 witness: one enabled, one disabled. -/
def c2WitnessInsts : List ServiceInstance :=
  [{ id := "a1".data, name := "auth".data, url := "http://u1".data },
   { id := "a2".data, name := "auth".data, url := "http://u2".data,
     enabled := false, status := .disabled }]

/-- **C2, witness.** The amended theorem applied to a concrete two-instance
service, one enabled whose health GET answers 500 and one disabled. -/
theorem health_tick_healthy_iff_200_witness :
    (performHealthChecks [("auth".data, c2WitnessInsts)]
          (fun _ => .response 500) 7
        = [("auth".data, c2WitnessInsts.map (fun i =>
            if i.enabled then
              updateInstStatus (checkStatus ((fun _ => HealthOutcome.response 500)
                (healthUrl i.url i.healthCheck))) 7 i
            else i))]) ∧
      checkStatus (.response 200) = .healthy ∧
      checkStatus (.response 503) ≠ .healthy := by
  have h := health_tick_healthy_iff_200 "auth".data c2WitnessInsts
    (fun _ => .response 500) 7 (by decide)
  refine ⟨h.1, (h.2 (.response 200)).mpr rfl, fun hc => ?_⟩
  have h503 := (h.2 (.response 503)).mp hc
  simp at h503

/-- The operation sequence of the C5 witness: register, disable, enable,
register again, unregister. -/
def c5wOps : List RegOp :=
  [.register "auth".data "u1".data "/".data 1 0,
   .disable "auth".data (mkInstanceId "auth".data "u1".data 0),
   .register "auth".data "u2".data "/".data 1 3,
   .enable "auth".data (mkInstanceId "auth".data "u1".data 0),
   .unregister "auth".data (mkInstanceId "auth".data "u2".data 3)]

/-- **C5, witness.** The amended theorem applied to the concrete operation
sequence `c5wOps`: the boolean invariant evaluates to true on the resulting
registry. -/
theorem registry_disabled_iff_enabled_witness :
    regDisabledIffB (applyOps c5wOps) = true := by
  have h := registry_disabled_iff_enabled c5wOps (by decide)
  rw [regDisabledIffB, List.all_eq_true]
  intro e he
  rw [List.all_eq_true]
  intro i hi
  have hinv := h e he i hi
  unfold instDisabledIff at hinv
  unfold instDisabledIffB
  cases henb : i.enabled <;> rw [henb] at hinv <;> simp_all

/-! ## Load balancer (`core/load_balancer.py`) -/

/-- `LoadBalancingStrategy`, restricted to the strategies whose selection is a
pure function of the balancer state (`random`, `weighted` and `ip_hash` draw
on `random` / `hashlib.md5` and are not needed by the claims). -/
inductive LBStrategy where
  | roundRobin
  | leastConnections
deriving DecidableEq, Repr

/-- The balancer's mutable state: the per-service round-robin index and the
in-flight connection counts (`dict` semantics: update in place, append new
keys). -/
structure LBState where
  strategy : LBStrategy
  roundRobinIndex : List (PyStr × Nat) := []
  connectionCounts : List (PyStr × Nat) := []
deriving DecidableEq, Repr

/-- Dictionary lookup. -/
def lookupNat (m : List (PyStr × Nat)) (k : PyStr) : Option Nat :=
  (m.find? (·.1 == k)).map (·.2)

/-- Dictionary store: overwrite in place, or append a fresh key. -/
def setNat : List (PyStr × Nat) → PyStr → Nat → List (PyStr × Nat)
  | [], k, v => [(k, v)]
  | (k0, v0) :: rest, k, v =>
      if k0 == k then (k0, v) :: rest else (k0, v0) :: setNat rest k v

/-- Dictionary delete. -/
def removeNat (m : List (PyStr × Nat)) (k : PyStr) : List (PyStr × Nat) :=
  m.filter (fun p => !(p.1 == k))

/-- `self.connection_counts.get(instance.id, 0)`. -/
def countOf (st : LBState) (instId : PyStr) : Nat :=
  (lookupNat st.connectionCounts instId).getD 0

/-- `_round_robin`: read the per-service index (defaulting to 0), reduce it
modulo the list length, store `index + 1`, return the element at `index`. -/
def roundRobinSelect (st : LBState) (name : PyStr)
    (insts : List ServiceInstance) : Option ServiceInstance × LBState :=
  let stored := (lookupNat st.roundRobinIndex name).getD 0
  let index := stored % insts.length
  (insts.get? index,
   { st with roundRobinIndex := setNat st.roundRobinIndex name (index + 1) })

/-- `min(instance_counts, key=...)`: first element with the minimal in-flight
count (Python's `min` keeps the earliest minimum). -/
def minByCount (st : LBState) : ServiceInstance → List ServiceInstance → ServiceInstance
  | best, [] => best
  | best, i :: rest =>
      if countOf st i.id < countOf st best.id then minByCount st i rest
      else minByCount st best rest

/-- `_least_connections`. -/
def leastConnectionsSelect (st : LBState) :
    List ServiceInstance → Option ServiceInstance
  | [] => none
  | i :: rest => some (minByCount st i rest)

/-- `_select_by_strategy` for the modelled strategies. -/
def selectByStrategy (st : LBState) (name : PyStr)
    (insts : List ServiceInstance) : Option ServiceInstance × LBState :=
  match st.strategy with
  | .roundRobin => roundRobinSelect st name insts
  | .leastConnections => (leastConnectionsSelect st insts, st)

/-- `_increment_connection`. -/
def incrementConnection (st : LBState) (instId : PyStr) : LBState :=
  { st with connectionCounts := setNat st.connectionCounts instId (countOf st instId + 1) }

/-- `_decrement_connection` / `release_instance`: decrement and delete the
entry once it reaches zero. -/
def decrementConnection (st : LBState) (instId : PyStr) : LBState :=
  match lookupNat st.connectionCounts instId with
  | none => st
  | some v =>
      if v ≤ 1 then { st with connectionCounts := removeNat st.connectionCounts instId }
      else { st with connectionCounts := setNat st.connectionCounts instId (v - 1) }

/-- The healthy-and-enabled filter at the top of `select_instance`. -/
def healthyOf (insts : List ServiceInstance) : List ServiceInstance :=
  insts.filter (fun i => i.status == .healthy && i.enabled)

/-- `select_instance`: filter the healthy set, dispatch on the strategy, and
count the selected instance's connection. -/
def selectInstance (st : LBState) (insts : List ServiceInstance) (name : PyStr) :
    Option ServiceInstance × LBState :=
  let healthy := healthyOf insts
  if healthy.isEmpty then (none, st)
  else
    match selectByStrategy st name healthy with
    | (some inst, st2) => (some inst, incrementConnection st2 inst.id)
    | (none, st2) => (none, st2)

/-- `retry_request`, as the trace of selected instance ids: every attempt
passes the same, unmodified `insts` list to `select_instance`; a successful
call releases the instance and stops, a failed call releases the instance and
moves to the next attempt. -/
def retrySelections (insts : List ServiceInstance) (name : PyStr)
    (succeeds : PyStr → Bool) : Nat → LBState → List PyStr × LBState
  | 0, st => ([], st)
  | k + 1, st =>
      match selectInstance st insts name with
      | (none, st2) => retrySelections insts name succeeds k st2
      | (some inst, st2) =>
          if succeeds inst.id then ([inst.id], decrementConnection st2 inst.id)
          else
            let st3 := decrementConnection st2 inst.id
            let r := retrySelections insts name succeeds k st3
            (inst.id :: r.1, r.2)

/-! ### Claim C4: no exclusion of the just-failed instance -/

/-- Healthy instance `A` (listed first). -/
def instA : ServiceInstance :=
  { id := "A".data, name := "svc".data, url := "http://a".data, status := .healthy }

/-- Healthy instance `B`, the available alternative. -/
def instB : ServiceInstance :=
  { id := "B".data, name := "svc".data, url := "http://b".data, status := .healthy }

/-- **C4, counterexample.** Least-connections balancer, two healthy
instances, every forwarded call fails: all three attempts of the retry cycle
select `A`, the instance that just failed, although healthy alternative `B`
exists — the just-failed id is not excluded from the selection input. -/
theorem retry_reselects_failed_instance :
    (retrySelections [instA, instB] "svc".data (fun _ => false) 3
          { strategy := .leastConnections }).1
        = ["A".data, "A".data, "A".data] ∧
      instB.status = .healthy ∧ instB.enabled = true ∧ instB.id ≠ instA.id := by
  decide

lemma release_after_select_restores (instId : PyStr) (s : LBStrategy)
    (rr : List (PyStr × Nat)) :
    decrementConnection
        (incrementConnection { strategy := s, roundRobinIndex := rr } instId) instId
      = { strategy := s, roundRobinIndex := rr } := by
  simp [incrementConnection, decrementConnection, countOf, lookupNat, setNat, removeNat]

/-- **C4, amended.** The retry loop passes the same full instance list to
every attempt and does not exclude the just-failed id: under the
least-connections strategy, starting with no in-flight connections, when
every forwarded call fails the same instance (the stable minimum of the
healthy set) is selected on every attempt of the cycle, alternatives
notwithstanding. -/
theorem retry_no_exclusion (insts : List ServiceInstance) (name : PyStr)
    (k : Nat) (i0 : ServiceInstance)
    (h : leastConnectionsSelect { strategy := .leastConnections } (healthyOf insts)
          = some i0) :
    (retrySelections insts name (fun _ => false) k
          { strategy := .leastConnections }).1
      = List.replicate k i0.id := by
  induction k with
  | zero => rfl
  | succ k ih =>
      have hne : (healthyOf insts).isEmpty = false := by
        cases hh : healthyOf insts with
        | nil => rw [hh] at h; simp [leastConnectionsSelect] at h
        | cons a l => simp
      rw [show retrySelections insts name (fun _ => false) (k + 1)
              { strategy := .leastConnections }
            = (i0.id :: (retrySelections insts name (fun _ => false) k
                (decrementConnection
                  (incrementConnection { strategy := .leastConnections } i0.id)
                  i0.id)).1,
               (retrySelections insts name (fun _ => false) k
                (decrementConnection
                  (incrementConnection { strategy := .leastConnections } i0.id)
                  i0.id)).2) by
          simp [retrySelections, selectInstance, selectByStrategy, hne, h]]
      rw [release_after_select_restores]
      rw [ih, List.replicate_succ]

/-- **C4, witness.** The amended theorem at the concrete two-instance input:
two attempts, both selecting `A`. -/
theorem retry_no_exclusion_witness :
    (retrySelections [instA, instB] "svc".data (fun _ => false) 2
          { strategy := .leastConnections }).1
      = List.replicate 2 instA.id :=
  retry_no_exclusion [instA, instB] "svc".data 2 instA (by decide)

/-! ## Gateway middleware (`main.py`, `gateway_middleware`) -/

/-- A gateway JSON error body: `{"error": ..., "request_id": ...}` (the
`request_id` key is present only where the code adds it). -/
def jsonError (status : Nat) (err : String) (rid : Option String) : HttpResponse :=
  { status := status, bodyError := some err, bodyRequestId := rid }

/-- `response.headers[k] = v`: overwrite the first matching key in place, or
append a fresh key. -/
def setHeader : List (String × String) → String → String → List (String × String)
  | [], k, v => [(k, v)]
  | (k0, v0) :: rest, k, v =>
      if k0 == k then (k0, v) :: rest else (k0, v0) :: setHeader rest k v

/-- Whether a response carries the named header. -/
def hasHeader (r : HttpResponse) (n : String) : Bool :=
  r.headers.any (·.1 == n)

/-- The value of the named header, if present. -/
def headerValue (r : HttpResponse) (n : String) : Option String :=
  (r.headers.find? (·.1 == n)).map (·.2)

/-- `gateway_middleware`: authentication rejection (401) and rate-limit
rejection (429) return fresh `JSONResponse`s immediately; only a response
coming back from `call_next` has `X-Request-ID` and `X-Response-Time` set on
it; an exception anywhere in the `try` block yields the 500 response.
`inner` is the outcome of `call_next`. -/
def gatewayMiddleware (rid elapsed : String)
    (authEnabled authOk rateEnabled rateAllowed : Bool)
    (inner : Except Unit HttpResponse) : HttpResponse :=
  if authEnabled && !authOk then jsonError 401 "Unauthorized" (some rid)
  else if rateEnabled && !rateAllowed then jsonError 429 "Too many requests" (some rid)
  else
    match inner with
    | .ok r =>
        { r with
          headers := setHeader (setHeader r.headers "X-Request-ID" rid)
            "X-Response-Time" elapsed }
    | .error _ => jsonError 500 "Internal server error" (some rid)

/-! ### Claim C6: correlation id on error responses -/

/-- An OPEN cell whose open-timeout has not elapsed, for the C6
counterexample. -/
def c6OpenCell : CircuitBreaker :=
  { state := .halfOpen, halfOpenCalls := 3 }

/-- The 503 circuit-open response as `proxy_request` actually produces it
(a HALF_OPEN cell with its in-flight budget exhausted rejects like OPEN). -/
def c6OpenResp : HttpResponse :=
  ((proxyRequest c6OpenCell 1 "api/auth/me".data true (.upstream 200)).1).getD
    { status := 0 }

/-- **C6, counterexample.** The 429 rate-limit rejection carries the
correlation id in the body but has no `X-Request-ID` header, and the 503
circuit-open response, after passing back through the middleware, has the
header but no `request_id` field in its body — two error responses violating
the claim. -/
theorem error_responses_missing_request_id :
    ((gatewayMiddleware "r1" "0.42ms" false true true false (.ok c6OpenResp)).status
          = 429 ∧
        (gatewayMiddleware "r1" "0.42ms" false true true false
            (.ok c6OpenResp)).bodyRequestId = some "r1" ∧
        hasHeader (gatewayMiddleware "r1" "0.42ms" false true true false
            (.ok c6OpenResp)) "X-Request-ID" = false) ∧
      ((gatewayMiddleware "r1" "0.42ms" false true true true (.ok c6OpenResp)).status
          = 503 ∧
        hasHeader (gatewayMiddleware "r1" "0.42ms" false true true true
            (.ok c6OpenResp)) "X-Request-ID" = true ∧
        (gatewayMiddleware "r1" "0.42ms" false true true true
            (.ok c6OpenResp)).bodyRequestId = none) := by
  decide

lemma setHeader_any (hs : List (String × String)) (m v n : String) :
    ((setHeader hs m v).any (·.1 == n)) = (hs.any (·.1 == n) || (m == n)) := by
  induction hs with
  | nil => simp [setHeader]
  | cons hd tl ih =>
      obtain ⟨k0, v0⟩ := hd
      simp only [setHeader]
      split
      · next hk =>
          have hkm : k0 = m := eq_of_beq hk
          cases hmn : (m == n) <;> cases hta : tl.any (·.1 == n) <;>
            simp [hkm, hmn, hta]
      · simp only [List.any_cons, ih, Bool.or_assoc]

lemma findValue_setHeader_self (hs : List (String × String)) (n v : String) :
    ((setHeader hs n v).find? (·.1 == n)).map (·.2) = some v := by
  induction hs with
  | nil => simp [setHeader]
  | cons hd tl ih =>
      obtain ⟨k0, v0⟩ := hd
      simp only [setHeader]
      split
      · next hk => simp [List.find?, hk]
      · next hk => simp [List.find?, hk, ih]

lemma find_setHeader_other {m n : String} (hmn : (m == n) = false)
    (hs : List (String × String)) (v : String) :
    (setHeader hs m v).find? (·.1 == n) = hs.find? (·.1 == n) := by
  induction hs with
  | nil => simp [setHeader, List.find?, hmn]
  | cons hd tl ih =>
      obtain ⟨k0, v0⟩ := hd
      simp only [setHeader]
      split
      · next hk =>
          have hkm : k0 = m := eq_of_beq hk
          simp [List.find?, hkm, hmn]
      · next hk => simp only [List.find?]; rw [ih]

lemma routeRequest_no_request_id (p : PyStr) (b : Bool) (fo : ForwardOutcome) :
    (routeRequest p b fo).bodyRequestId = none := by
  unfold routeRequest
  cases (parsePath routerGatewayPrefix p).1 with
  | none => rfl
  | some s => cases b <;> cases fo <;> simp [forwardRequest]

/-- **C6, amended.** The middleware-produced error responses (401
unauthorised, 429 rate-limited, 500 internal) carry the correlation id as the
`request_id` body field but carry *no* `X-Request-ID` header, because the
header is attached only to responses returned by `call_next`; conversely
every response that does pass back through the middleware gets the
`X-Request-ID` header with the correlation id, but the error bodies built on
the proxy path (400, 502, 503, circuit-open 503) contain no `request_id`
field. -/
theorem error_response_request_id_split (rid elapsed : String)
    (r : HttpResponse) :
    ((gatewayMiddleware rid elapsed true false true true (.ok r)).status = 401 ∧
        (gatewayMiddleware rid elapsed true false true true (.ok r)).bodyRequestId
          = some rid ∧
        hasHeader (gatewayMiddleware rid elapsed true false true true (.ok r))
          "X-Request-ID" = false) ∧
      ((gatewayMiddleware rid elapsed false true true false (.ok r)).status = 429 ∧
        (gatewayMiddleware rid elapsed false true true false (.ok r)).bodyRequestId
          = some rid ∧
        hasHeader (gatewayMiddleware rid elapsed false true true false (.ok r))
          "X-Request-ID" = false) ∧
      ((gatewayMiddleware rid elapsed false true false true (.error ())).status = 500 ∧
        (gatewayMiddleware rid elapsed false true false true
            (.error ())).bodyRequestId = some rid ∧
        hasHeader (gatewayMiddleware rid elapsed false true false true (.error ()))
          "X-Request-ID" = false) ∧
      headerValue (gatewayMiddleware rid elapsed false true false true (.ok r))
          "X-Request-ID" = some rid ∧
      (∀ (p : PyStr) (b : Bool) (fo : ForwardOutcome),
        (routeRequest p b fo).bodyRequestId = none) ∧
      (∀ (cb : CircuitBreaker) (now : ℚ) (p : PyStr) (av : Bool)
          (fo : ForwardOutcome),
        Option.all (fun x => x.bodyRequestId == none)
          (proxyRequest cb now p av fo).1 = true) := by
  refine ⟨⟨rfl, rfl, rfl⟩, ⟨rfl, rfl, rfl⟩, ⟨rfl, rfl, rfl⟩, ?_, ?_, ?_⟩
  · have hmn : (("X-Response-Time" : String) == "X-Request-ID") = false := by decide
    show (List.find? (fun x => x.1 == "X-Request-ID")
        (setHeader (setHeader r.headers "X-Request-ID" rid)
          "X-Response-Time" elapsed)).map (·.2) = some rid
    rw [find_setHeader_other hmn, findValue_setHeader_self]
  · exact routeRequest_no_request_id
  · intro cb now p av fo
    unfold proxyRequest
    cases (parsePath routerGatewayPrefix ('/' :: p)).1 with
    | none => rfl
    | some s =>
        cases hg : (cb.canExecute now).1 <;>
          simp [CircuitBreaker.callFn, hg, Option.all_some, routeRequest_no_request_id]

/-! ## Rate limiter (`core/rate_limiter.py`) -/

/-- `TokenBucket`: rate in tokens/second, capacity, current tokens (a float in
the source, a rational here), and the last-update instant. -/
structure TokenBucket where
  rate : ℚ
  capacity : ℚ
  tokens : ℚ
  lastUpdate : ℚ
deriving DecidableEq, Repr

/-- `TokenBucket.consume`: refill by `elapsed * rate` clamped to the capacity,
then deduct when enough tokens are available. -/
def TokenBucket.consume (b : TokenBucket) (now : ℚ) (tokens : ℚ) :
    Bool × TokenBucket :=
  let tk := min b.capacity (b.tokens + (now - b.lastUpdate) * b.rate)
  if tokens ≤ tk then (true, { b with tokens := tk - tokens, lastUpdate := now })
  else (false, { b with tokens := tk, lastUpdate := now })

/-- `RateLimiter._get_token_bucket`: a fresh bucket with
`rate = requests_per_minute / 60` and `capacity = tokens = burst_size`,
created at instant `t0`. -/
def freshTokenBucket (rpm burst : Nat) (t0 : ℚ) : TokenBucket :=
  { rate := (rpm : ℚ) / 60, capacity := (burst : ℚ), tokens := (burst : ℚ),
    lastUpdate := t0 }

/-! ### Claim C9: burst then deny -/

/-- **C9.** On a freshly created token bucket of capacity `burst ≥ 1`, two
consecutive `consume(burst)` calls at the creation instant return `true` then
`false`. -/
theorem token_bucket_burst_then_deny (rpm burst : Nat) (t0 : ℚ)
    (h : 1 ≤ burst) :
    ((freshTokenBucket rpm burst t0).consume t0 (burst : ℚ)).1 = true ∧
      ((((freshTokenBucket rpm burst t0).consume t0 (burst : ℚ)).2).consume t0
          (burst : ℚ)).1 = false := by
  have h1 : (1 : ℚ) ≤ (burst : ℚ) := by exact_mod_cast h
  have h0 : (0 : ℚ) ≤ (burst : ℚ) := by positivity
  have e1 : t0 - t0 = 0 := sub_self t0
  have hmin : min ((burst : ℚ)) ((burst : ℚ) + (t0 - t0) * ((rpm : ℚ) / 60))
      = (burst : ℚ) := by
    rw [e1, zero_mul, add_zero, min_self]
  have hfirst : (freshTokenBucket rpm burst t0).consume t0 (burst : ℚ)
      = (true, { rate := (rpm : ℚ) / 60, capacity := (burst : ℚ), tokens := 0,
                 lastUpdate := t0 }) := by
    simp only [TokenBucket.consume, freshTokenBucket, hmin, le_refl, if_pos]
    rw [sub_self]
  refine ⟨by rw [hfirst], ?_⟩
  rw [hfirst]
  have hmin2 : min ((burst : ℚ)) (0 + (t0 - t0) * ((rpm : ℚ) / 60)) = 0 := by
    rw [e1, zero_mul, add_zero]
    exact min_eq_right h0
  have hno : ¬ ((burst : ℚ) ≤ 0) := by linarith
  simp only [TokenBucket.consume, hmin2, if_neg hno]

/-- **C9, witness.** The theorem at rpm 100, burst 10, creation instant 0. -/
theorem token_bucket_burst_then_deny_witness :
    ((freshTokenBucket 100 10 0).consume 0 ((10 : Nat) : ℚ)).1 = true ∧
      ((((freshTokenBucket 100 10 0).consume 0 ((10 : Nat) : ℚ)).2).consume 0
          ((10 : Nat) : ℚ)).1 = false :=
  token_bucket_burst_then_deny 100 10 0 (by decide)

/-- `SlidingWindow`: admission-instant queue over a trailing window. -/
structure SlidingWindow where
  requests : Nat
  windowSeconds : Nat
  timestamps : List ℚ := []

/-- The queue after the eviction loop of `consume` at instant `now`:
leading timestamps with `now - ts >= window_seconds` are popped. -/
def swEvict (w : SlidingWindow) (now : ℚ) : List ℚ :=
  w.timestamps.dropWhile (fun x => decide ((w.windowSeconds : ℚ) ≤ now - x))

/-- The window state after an admitting `consume(now, tokens)`. -/
def swAfterAdmit (w : SlidingWindow) (now : ℚ) (tokens : Nat) : SlidingWindow :=
  { w with timestamps := swEvict w now ++ List.replicate tokens now }

/-- The window state after a denying `consume(now, tokens)`. -/
def swAfterDeny (w : SlidingWindow) (now : ℚ) : SlidingWindow :=
  { w with timestamps := swEvict w now }

/-- `SlidingWindow.consume`: evict the timestamps that have aged out, then
admit `tokens` copies of `now` when the queue has room. -/
def SlidingWindow.consume (w : SlidingWindow) (now : ℚ) (tokens : Nat) :
    Bool × SlidingWindow :=
  if (swEvict w now).length + tokens ≤ w.requests then (true, swAfterAdmit w now tokens)
  else (false, swAfterDeny w now)

/-- `RateLimiter._get_sliding_window`: `SlidingWindow(requests_per_minute, 60)`
with an empty queue. -/
def freshSlidingWindow (rpm : Nat) : SlidingWindow :=
  { requests := rpm, windowSeconds := 60 }

/-- Run a sequence of `consume` calls (instant, tokens); returns the final
window together with every admitted instant (one entry per admitted token). -/
def swRun (w : SlidingWindow) : List (ℚ × Nat) → SlidingWindow × List ℚ
  | [] => (w, [])
  | (t, n) :: rest =>
      let r := w.consume t n
      let r2 := swRun r.2 rest
      (r2.1, (if r.1 then List.replicate n t else []) ++ r2.2)

/-- The number of instants of `l` falling in the window `[a, a + W)`. -/
def countWin (a W : ℚ) (l : List ℚ) : Nat :=
  (l.filter (fun x => decide (a ≤ x ∧ x < a + W))).length

lemma countWin_append (a W : ℚ) (l1 l2 : List ℚ) :
    countWin a W (l1 ++ l2) = countWin a W l1 + countWin a W l2 := by
  simp [countWin, List.filter_append]

lemma countWin_le_length (a W : ℚ) (l : List ℚ) :
    countWin a W l ≤ l.length :=
  List.length_filter_le _ l

lemma countWin_replicate (a W t : ℚ) (n : Nat) :
    countWin a W (List.replicate n t) = if a ≤ t ∧ t < a + W then n else 0 := by
  induction n with
  | zero => simp [countWin]
  | succ n ih =>
      by_cases hm : a ≤ t ∧ t < a + W
      · simp only [countWin, List.replicate_succ, List.filter_cons] at ih ⊢
        simp only [hm, decide_eq_true_eq] at ih ⊢
        simp_all
      · simp only [countWin, List.replicate_succ, List.filter_cons] at ih ⊢
        simp only [hm, decide_eq_true_eq] at ih ⊢
        simp_all

lemma countWin_swEvict (a : ℚ) (w : SlidingWindow) (now : ℚ)
    (hnow : now < a + (w.windowSeconds : ℚ)) :
    countWin a (w.windowSeconds : ℚ) w.timestamps
      = countWin a (w.windowSeconds : ℚ) (swEvict w now) := by
  unfold swEvict
  conv_lhs => rw [← List.takeWhile_append_dropWhile
    (p := fun x => decide ((w.windowSeconds : ℚ) ≤ now - x)) (l := w.timestamps)]
  rw [countWin_append]
  have hz : countWin a (w.windowSeconds : ℚ)
      (w.timestamps.takeWhile (fun x => decide ((w.windowSeconds : ℚ) ≤ now - x)))
        = 0 := by
    unfold countWin
    rw [List.length_eq_zero, List.filter_eq_nil_iff]
    intro x hx
    have hpx := List.mem_takeWhile_imp hx
    rw [decide_eq_true_eq] at hpx
    simp only [decide_eq_true_eq, not_and]
    intro hax
    linarith
  omega

lemma swRun_mem_times :
    ∀ (calls : List (ℚ × Nat)) (w : SlidingWindow) (x : ℚ),
      x ∈ (swRun w calls).2 → x ∈ calls.map Prod.fst := by
  intro calls
  induction calls with
  | nil => intro w x hx; simp [swRun] at hx
  | cons c rest ih =>
      obtain ⟨t, n⟩ := c
      intro w x hx
      simp only [swRun, List.mem_append] at hx
      rcases hx with hx | hx
      · split at hx
        · rw [List.eq_of_mem_replicate hx]
          simp
        · simp at hx
      · exact List.mem_cons_of_mem _ (ih _ x hx)

lemma countWin_swRun_zero_of_late {rest : List (ℚ × Nat)} {t : ℚ}
    (hle : ∀ x ∈ rest.map Prod.fst, t ≤ x) (w : SlidingWindow) (a W : ℚ)
    (hlate : a + W ≤ t) :
    countWin a W (swRun w rest).2 = 0 := by
  unfold countWin
  rw [List.length_eq_zero, List.filter_eq_nil_iff]
  intro x hx
  have hxt : t ≤ x := hle x (swRun_mem_times rest w x hx)
  simp only [decide_eq_true_eq, not_and, not_lt]
  intro _
  linarith

lemma swRun_window_bound :
    ∀ (calls : List (ℚ × Nat)) (w : SlidingWindow) (a : ℚ),
      List.Pairwise (· ≤ ·) (calls.map Prod.fst) →
      (countWin a (w.windowSeconds : ℚ) (swRun w calls).2
          + countWin a (w.windowSeconds : ℚ) w.timestamps ≤ w.requests
        ∨ countWin a (w.windowSeconds : ℚ) (swRun w calls).2 = 0) := by
  intro calls
  induction calls with
  | nil => intro w a _; right; rfl
  | cons c rest ih =>
      obtain ⟨t, n⟩ := c
      intro w a hp
      rw [List.map_cons, List.pairwise_cons] at hp
      obtain ⟨hle, hp⟩ := hp
      by_cases hadm : (swEvict w t).length + n ≤ w.requests
      · -- the call at instant t is admitted
        have hrun : (swRun w ((t, n) :: rest)).2
            = List.replicate n t ++ (swRun (swAfterAdmit w t n) rest).2 := by
          simp [swRun, SlidingWindow.consume, hadm]
        have hWa : ((swAfterAdmit w t n).windowSeconds : ℚ)
            = (w.windowSeconds : ℚ) := rfl
        rw [hrun, countWin_append, countWin_replicate]
        rcases ih (swAfterAdmit w t n) a hp with hih | hih
        · rw [hWa] at hih
          have hts : (swAfterAdmit w t n).timestamps
              = swEvict w t ++ List.replicate n t := rfl
          rw [hts, countWin_append, countWin_replicate] at hih
          by_cases hwin : a ≤ t ∧ t < a + (w.windowSeconds : ℚ)
          · left
            rw [if_pos hwin]
            rw [if_pos hwin] at hih
            rw [countWin_swEvict a w t hwin.2]
            have hreq : (swAfterAdmit w t n).requests = w.requests := rfl
            rw [hreq] at hih
            omega
          · by_cases hlow : t < a + (w.windowSeconds : ℚ)
            · left
              rw [if_neg hwin]
              rw [if_neg hwin] at hih
              rw [countWin_swEvict a w t hlow]
              have hreq : (swAfterAdmit w t n).requests = w.requests := rfl
              rw [hreq] at hih
              omega
            · right
              rw [if_neg hwin]
              push_neg at hlow
              have hz := countWin_swRun_zero_of_late hle (swAfterAdmit w t n) a
                (w.windowSeconds : ℚ) hlow
              omega
        · by_cases hwin2 : t < a + (w.windowSeconds : ℚ)
          · left
            have hcle := countWin_le_length a (w.windowSeconds : ℚ) (swEvict w t)
            rw [hWa] at hih
            by_cases hwin : a ≤ t ∧ t < a + (w.windowSeconds : ℚ)
            · rw [if_pos hwin, countWin_swEvict a w t hwin2, hih]
              omega
            · rw [if_neg hwin, countWin_swEvict a w t hwin2, hih]
              omega
          · right
            have hwin : ¬(a ≤ t ∧ t < a + (w.windowSeconds : ℚ)) := by
              intro hc
              exact hwin2 hc.2
            rw [if_neg hwin]
            push_neg at hwin2
            have hz := countWin_swRun_zero_of_late hle (swAfterAdmit w t n) a
              (w.windowSeconds : ℚ) hwin2
            omega
      · -- the call at instant t is denied
        have hrun : (swRun w ((t, n) :: rest)).2
            = (swRun (swAfterDeny w t) rest).2 := by
          simp [swRun, SlidingWindow.consume, hadm]
        have hWd : ((swAfterDeny w t).windowSeconds : ℚ)
            = (w.windowSeconds : ℚ) := rfl
        rw [hrun]
        rcases ih (swAfterDeny w t) a hp with hih | hih
        · by_cases hz : countWin a (w.windowSeconds : ℚ)
              (swRun (swAfterDeny w t) rest).2 = 0
          · right
            exact hz
          · left
            have hx : ∃ x ∈ (swRun (swAfterDeny w t) rest).2,
                a ≤ x ∧ x < a + (w.windowSeconds : ℚ) := by
              by_contra hno
              push_neg at hno
              apply hz
              unfold countWin
              rw [List.length_eq_zero, List.filter_eq_nil_iff]
              intro x hxm
              simp only [decide_eq_true_eq, not_and, not_lt]
              intro hax
              exact hno x hxm hax
            rcases hx with ⟨x, hxm, hx1, hx2⟩
            have hxt : t ≤ x := by
              have hmem := swRun_mem_times rest _ x hxm
              exact hle x hmem
            have htlt : t < a + (w.windowSeconds : ℚ) := lt_of_le_of_lt hxt hx2
            rw [hWd] at hih
            have hts : (swAfterDeny w t).timestamps = swEvict w t := rfl
            rw [hts] at hih
            have hreq : (swAfterDeny w t).requests = w.requests := rfl
            rw [hreq] at hih
            rw [countWin_swEvict a w t htlt]
            omega
        · right
          rw [hWd] at hih
          exact hih

/-! ### Claim C7: the sliding-window admission bound -/

/-- **C7.** For a per-identity sliding window created by the rate limiter
(`SlidingWindow(rpm, 60)`, empty queue), any sequence of `consume` calls at
non-decreasing instants admits at most `rpm` tokens whose admission instants
fall inside any 60-second window `[a, a + 60)`. -/
theorem sliding_window_rate_bound (rpm : Nat) (calls : List (ℚ × Nat)) (a : ℚ)
    (hmono : List.Pairwise (· ≤ ·) (calls.map Prod.fst)) :
    countWin a 60 (swRun (freshSlidingWindow rpm) calls).2 ≤ rpm := by
  have hb := swRun_window_bound calls (freshSlidingWindow rpm) a hmono
  have hcast : ((freshSlidingWindow rpm).windowSeconds : ℚ) = 60 := by
    norm_num [freshSlidingWindow]
  rw [hcast] at hb
  have hreq : (freshSlidingWindow rpm).requests = rpm := rfl
  rcases hb with hb | hb
  · have hz : countWin a 60 (freshSlidingWindow rpm).timestamps = 0 := rfl
    omega
  · omega

/-- **C7, witness.** Two calls at instants 0 and 1 against rpm 2: the bound
holds concretely. -/
theorem sliding_window_rate_bound_witness :
    countWin 0 60 (swRun (freshSlidingWindow 2) [(0, 1), (1, 1)]).2 ≤ 2 :=
  sliding_window_rate_bound 2 [(0, 1), (1, 1)] 0 (by norm_num)

/-! ### Claim C10: raw-string prefix matching in the path parser -/

/-- **C10.** `_parse_path` matches the gateway prefix as a raw character
prefix, not at a segment boundary: whenever the path starts with the prefix
string, exactly `len(prefix)` characters are removed and leading slashes
stripped before the first slash-separated segment is taken as the service
name.  Concretely, `/apifoo/x` under prefix `/api` parses to service `foo`
with remaining path `x`, and the proxied request is forwarded rather than
rejected with 400. -/
theorem parse_path_prefix_not_segment (pfx path : PyStr)
    (h : pyStartsWith path pfx = true) :
    parsePath pfx path
        = splitService ((path.drop pfx.length).dropWhile (· == '/')) ∧
      parsePath routerGatewayPrefix "/apifoo/x".data
        = (some "foo".data, "x".data) ∧
      (routeRequest "/apifoo/x".data true (.upstream 200)).status = 200 := by
  refine ⟨?_, by decide, by decide⟩
  simp [parsePath, h]

/-- **C10, witness.** The theorem at prefix `/api` and path `/apifoo/x`. -/
theorem parse_path_prefix_not_segment_witness :
    (parsePath routerGatewayPrefix "/apifoo/x".data
        = splitService ((("/apifoo/x".data).drop routerGatewayPrefix.length).dropWhile
            (· == '/')) ∧
      parsePath routerGatewayPrefix "/apifoo/x".data
        = (some "foo".data, "x".data) ∧
      (routeRequest "/apifoo/x".data true (.upstream 200)).status = 200) ∧
      pyStartsWith "/apifoo/x".data routerGatewayPrefix = true :=
  ⟨parse_path_prefix_not_segment routerGatewayPrefix "/apifoo/x".data (by decide),
   by decide⟩

end LilFox
